import Mathlib

/-!
Verification development for the stopwatch / countdown web application
(`src/stopwatch-JF/script.js`).

The timing core of the application is embedded shallowly:

* `StopwatchLogic` and `CountdownLogic` become state records; `Date.now()`
  becomes an explicit `now : Int` argument to each operation; the
  `setInterval` / `clearInterval` scheduler becomes an explicit list of
  active interval handles carried in the state (`active`, `nextH`), so that
  "the interval callback fires" is an explicit `tick` event that has an
  effect only while a handle is registered.
* `displayManager.update(v)` calls become emitted values: operations that
  update the display return the list of values they emit.
* `CountdownInputManager.handleNumberInput` operates in JS on decimal
  strings; here the same manipulations are performed on lists of decimal
  digits (most significant first), which is exactly what the JS string
  slicing does on an all-digit string.

Specification-side definitions (used only to compare the code against the
spec's words) are explicitly marked as such in their doc comments.
-/

-- UTILITY CONSTANTS (script.js lines 22-25)

def MS_PER_HOUR : Nat := 3600000

def MS_PER_MINUTE : Nat := 60000

def MS_PER_SECOND : Nat := 1000

/-- `MAX_COUNTDOWN_MS = 24 * MS_PER_HOUR - 1`, i.e. 23:59:59.999. -/
def MAX_COUNTDOWN_MS : Nat := 24 * MS_PER_HOUR - 1

-- Decimal-digit helpers embedding the JS string manipulations.

/-- Fuel-driven computation of the decimal digits of `n`, most significant
first; `natDigits` supplies enough fuel.  Mirrors `Number.prototype.toString`
on a non-negative integer. -/
def natDigitsAux : Nat → Nat → List Nat
  | 0, _ => []
  | fuel + 1, n => if n < 10 then [n] else natDigitsAux fuel (n / 10) ++ [n % 10]

/-- Decimal digits of `n`, most significant first (`(0).toString() = "0"`). -/
def natDigits (n : Nat) : List Nat := natDigitsAux (n + 1) n

/-- `String.prototype.padStart(6, '0')` on an all-digit string. -/
def padStart6 (ds : List Nat) : List Nat := List.replicate (6 - ds.length) 0 ++ ds

/-- `s.slice(-k)` on an all-digit string: the last `k` digits (the whole
list when it is shorter than `k`). -/
def takeLast (k : Nat) (l : List Nat) : List Nat := l.drop (l.length - k)

/-- `parseInt` of an all-digit string. -/
def fromDigits (ds : List Nat) : Nat := ds.foldl (fun a d => 10 * a + d) 0

-- CountdownInputManager (script.js lines 241-361); its `inputMs` field is
-- the buffered countdown entry in milliseconds.

structure CountdownInputManager where
  inputMs : Nat
deriving DecidableEq, Repr

def cimInit : CountdownInputManager := ⟨0⟩

/-- The 6-digit register produced inside `handleNumberInput`:
`currentNumString = floor(inputMs/1000).toString().padStart(6,'0')`,
`newNumString = currentNumString.slice(-5) + digit`. -/
def shiftDigits (inputMs : Nat) (digit : Nat) : List Nat :=
  takeLast 5 (padStart6 (natDigits (inputMs / MS_PER_SECOND))) ++ [digit]

/-- `parseInt(newNumString.slice(0, -4))` — the leading (hours) digits. -/
def hmsHours (ds : List Nat) : Nat := fromDigits (ds.take (ds.length - 4))

/-- `parseInt(newNumString.slice(-4, -2))` — the middle (minutes) digits. -/
def hmsMinutes (ds : List Nat) : Nat := fromDigits (takeLast 2 (ds.take (ds.length - 2)))

/-- `parseInt(newNumString.slice(-2))` — the trailing (seconds) digits. -/
def hmsSeconds (ds : List Nat) : Nat := fromDigits (takeLast 2 ds)

/-- `CountdownInputManager.handleNumberInput` (script.js lines 279-318).
A non-digit argument (here: `digit ≥ 10`, the failed `/^\d$/` test) is
ignored; a shifted register whose hours/minutes/seconds exceed 23/59/59 is
rejected wholesale; otherwise `inputMs` is rebuilt from the parsed triple
and clamped at `MAX_COUNTDOWN_MS`. -/
def CountdownInputManager.handleNumberInput
    (m : CountdownInputManager) (digit : Nat) : CountdownInputManager :=
  if digit ≥ 10 then m
  else
    let ds := shiftDigits m.inputMs digit
    if hmsHours ds > 23 ∨ hmsMinutes ds > 59 ∨ hmsSeconds ds > 59 then m
    else
      let ims := hmsHours ds * MS_PER_HOUR + hmsMinutes ds * MS_PER_MINUTE +
        hmsSeconds ds * MS_PER_SECOND
      if ims > MAX_COUNTDOWN_MS then ⟨MAX_COUNTDOWN_MS⟩ else ⟨ims⟩

/-- `true` exactly when the press is accepted and reaches the clamping
branch `if (this.inputMs > MAX_COUNTDOWN_MS)` with a true condition. -/
def CountdownInputManager.clampHit (m : CountdownInputManager) (digit : Nat) : Bool :=
  if digit ≥ 10 then false
  else
    let ds := shiftDigits m.inputMs digit
    if hmsHours ds > 23 ∨ hmsMinutes ds > 59 ∨ hmsSeconds ds > 59 then false
    else
      decide (hmsHours ds * MS_PER_HOUR + hmsMinutes ds * MS_PER_MINUTE +
        hmsSeconds ds * MS_PER_SECOND > MAX_COUNTDOWN_MS)

/-- `CountdownInputManager.clearInput` (script.js lines 321-329). -/
def CountdownInputManager.clearInput (_ : CountdownInputManager) : CountdownInputManager := ⟨0⟩

/-- `CountdownInputManager.triggerSet` (script.js lines 344-355): fires the
`onSet` callback with `inputMs` only when `inputMs > 0`; the DigitEntryBuffer
"commit" of the specification. -/
def CountdownInputManager.triggerSet (m : CountdownInputManager) : Option Nat :=
  if m.inputMs > 0 then some m.inputMs else none

/-- Keypad-level operations: a digit press or the input-clear button. -/
inductive CIMOp
  | press (digit : Nat)
  | clearIn
deriving DecidableEq, Repr

def cimStep (m : CountdownInputManager) : CIMOp → CountdownInputManager
  | CIMOp.press d => m.handleNumberInput d
  | CIMOp.clearIn => m.clearInput

def runCIM (ops : List CIMOp) : CountdownInputManager := ops.foldl cimStep cimInit

/-- Pressing a sequence of digits starting from a cleared buffer. -/
def pressSeq (ds : List Nat) : CountdownInputManager :=
  ds.foldl CountdownInputManager.handleNumberInput cimInit

-- Shared scheduler plumbing: `clearInterval(handle)` removes the handle
-- from the set of active intervals (a no-op on `null` / stale handles).

def clearIntervalOn (active : List Nat) (h : Option Nat) : List Nat :=
  match h with
  | none => active
  | some k => active.filter (fun x => x != k)

/-- Button label, as set through the `_updateButtonState` / `textContent`
calls of the source. -/
inductive Btn
  | bstart
  | bpause
  | bcontinue
deriving DecidableEq, Repr

-- StopwatchLogic (script.js lines 148-235).  `active`/`nextH` model the
-- host's set of registered intervals; `timer` is the `this.timer` field.

structure StopwatchLogic where
  elapsedTime : Int
  startTime : Int
  isRunning : Bool
  button : Btn
  timer : Option Nat
  active : List Nat
  nextH : Nat
deriving DecidableEq, Repr

def swInit : StopwatchLogic :=
  { elapsedTime := 0, startTime := 0, isRunning := false, button := Btn.bstart,
    timer := none, active := [], nextH := 0 }

/-- `StopwatchLogic.start` (script.js lines 190-204): no-op while running;
otherwise records `startTime = now - elapsedTime` and registers an interval. -/
def StopwatchLogic.start (s : StopwatchLogic) (now : Int) : StopwatchLogic :=
  if s.isRunning = true then s
  else
    { s with
      isRunning := true, startTime := now - s.elapsedTime, button := Btn.bpause,
      timer := some s.nextH, active := s.active ++ [s.nextH], nextH := s.nextH + 1 }

/-- `StopwatchLogic.pause` (script.js lines 206-215): no-op unless running;
clears the interval and leaves `elapsedTime` untouched. -/
def StopwatchLogic.pause (s : StopwatchLogic) : StopwatchLogic :=
  if s.isRunning = false then s
  else
    { s with
      isRunning := false, button := Btn.bstart,
      active := clearIntervalOn s.active s.timer }

/-- `StopwatchLogic.clear` (script.js lines 217-229): pause, zero the elapsed
time, update the display with 0. -/
def StopwatchLogic.clear (s : StopwatchLogic) : StopwatchLogic × List Int :=
  ({ s.pause with elapsedTime := 0, button := Btn.bstart }, [0])

/-- The `setInterval` callback of `StopwatchLogic.start` (script.js lines
199-202): fires only while an interval is registered; recomputes
`elapsedTime = now - startTime` and emits it to the display. -/
def StopwatchLogic.tick (s : StopwatchLogic) (now : Int) : StopwatchLogic × List Int :=
  if s.active.isEmpty then (s, [])
  else ({ s with elapsedTime := now - s.startTime }, [now - s.startTime])

inductive SWOp
  | start
  | pause
  | clear
  | tick
deriving DecidableEq, Repr

/-- One time-stamped event against the stopwatch: an operation call or a
scheduler tick, at clock value `t`. -/
def swStep (s : StopwatchLogic) : SWOp × Int → StopwatchLogic × List Int
  | (SWOp.start, t) => (s.start t, [])
  | (SWOp.pause, _) => (s.pause, [])
  | (SWOp.clear, _) => s.clear
  | (SWOp.tick, t) => s.tick t

def runSW (s : StopwatchLogic) (tr : List (SWOp × Int)) : StopwatchLogic :=
  tr.foldl (fun s e => (swStep s e).fst) s

/-- All display updates emitted along a trace. -/
def swEmits (s : StopwatchLogic) : List (SWOp × Int) → List Int
  | [] => []
  | e :: rest => (swStep s e).snd ++ swEmits (swStep s e).fst rest

-- CountdownLogic (script.js lines 367-516).

structure CountdownLogic where
  initialTimeMs : Int
  remainingTime : Int
  endTime : Int
  isRunning : Bool
  button : Btn
  timer : Option Nat
  active : List Nat
  nextH : Nat
deriving DecidableEq, Repr

def cdInit : CountdownLogic :=
  { initialTimeMs := 0, remainingTime := 0, endTime := 0, isRunning := false,
    button := Btn.bstart, timer := none, active := [], nextH := 0 }

/-- `CountdownLogic.setInitialTime` (script.js lines 400-410): sets
`initialTimeMs = remainingTime = ms`, updates the display with the new
remaining time, and sets the button to Start.  It touches nothing else — in
particular it performs no range validation and does not stop a running
interval. -/
def CountdownLogic.setInitialTime (s : CountdownLogic) (ms : Int) :
    CountdownLogic × List Int :=
  ({ s with initialTimeMs := ms, remainingTime := ms, button := Btn.bstart }, [ms])

/-- `CountdownLogic.start` (script.js lines 429-455, excluding the interval
callback): no-op when already running or `remainingTime ≤ 0`; otherwise
records `endTime = now + remainingTime` and registers an interval. -/
def CountdownLogic.start (s : CountdownLogic) (now : Int) : CountdownLogic :=
  if s.isRunning = true ∨ s.remainingTime ≤ 0 then s
  else
    { s with
      isRunning := true, endTime := now + s.remainingTime, button := Btn.bpause,
      timer := some s.nextH, active := s.active ++ [s.nextH], nextH := s.nextH + 1 }

/-- `CountdownLogic.pause` (script.js lines 457-464): no-op unless running;
clears the interval, sets the button to Continue, and leaves
`remainingTime` exactly as the last tick stored it. -/
def CountdownLogic.pause (s : CountdownLogic) : CountdownLogic :=
  if s.isRunning = false then s
  else
    { s with
      isRunning := false, button := Btn.bcontinue,
      active := clearIntervalOn s.active s.timer }

/-- The `setInterval` callback of `CountdownLogic.start` (script.js lines
439-453): fires only while an interval is registered; recomputes
`remainingTime = endTime - now`; on `remainingTime ≤ 0` it clamps to 0,
pauses (stopping the interval), emits 0 and resets the button to Start;
otherwise it emits the new remaining time. -/
def CountdownLogic.tick (s : CountdownLogic) (now : Int) : CountdownLogic × List Int :=
  if s.active.isEmpty then (s, [])
  else
    let rem := s.endTime - now
    if rem ≤ 0 then
      ({ CountdownLogic.pause { s with remainingTime := 0 } with button := Btn.bstart }, [0])
    else
      ({ s with remainingTime := rem }, [rem])

/-- `CountdownLogic.continueCountdown` (script.js lines 466-473). -/
def CountdownLogic.continueCountdown (s : CountdownLogic) (now : Int) : CountdownLogic :=
  if s.isRunning = true ∨ s.remainingTime ≤ 0 then s
  else s.start now

/-- `CountdownLogic.clear` (script.js lines 475-485): pause, restore
`remainingTime = initialTimeMs`, emit it, button back to Start. -/
def CountdownLogic.clear (s : CountdownLogic) : CountdownLogic × List Int :=
  let s1 := s.pause
  ({ s1 with remainingTime := s1.initialTimeMs, button := Btn.bstart },
   [s1.initialTimeMs])

/-- `CountdownLogic.reset` (script.js lines 508-515): pause, zero both
durations, clear the display. -/
def CountdownLogic.reset (s : CountdownLogic) : CountdownLogic × List Int :=
  let s1 := s.pause
  ({ s1 with initialTimeMs := 0, remainingTime := 0, button := Btn.bstart }, [0])

inductive CDOp
  | setInitialTime (ms : Int)
  | start
  | pause
  | continueCountdown
  | clear
  | reset
  | tick
deriving DecidableEq, Repr

/-- One time-stamped event against the countdown. -/
def cdStep (s : CountdownLogic) : CDOp × Int → CountdownLogic × List Int
  | (CDOp.setInitialTime ms, _) => s.setInitialTime ms
  | (CDOp.start, t) => (s.start t, [])
  | (CDOp.pause, _) => (s.pause, [])
  | (CDOp.continueCountdown, t) => (s.continueCountdown t, [])
  | (CDOp.clear, _) => s.clear
  | (CDOp.reset, _) => s.reset
  | (CDOp.tick, t) => s.tick t

def runCd (s : CountdownLogic) (tr : List (CDOp × Int)) : CountdownLogic :=
  tr.foldl (fun s e => (cdStep s e).fst) s

/-- All display updates emitted along a countdown trace. -/
def cdEmits (s : CountdownLogic) : List (CDOp × Int) → List Int
  | [] => []
  | e :: rest => (cdStep s e).snd ++ cdEmits (cdStep s e).fst rest

-- SPECIFICATION-SIDE DEFINITIONS -------------------------------------------

/-- Specification-side machine (from the spec's words, for comparison with
the code): accumulates the sum of the durations of all Running intervals of
a stopwatch trace.  A Running interval opens at a `start` in a non-running
state and closes at the next `pause` (contributing `pause time - start
time`) or `clear` (which zeroes the accumulated elapsed time). -/
structure RunningSum where
  acc : Int
  runStart : Option Int
deriving DecidableEq, Repr

def rsInit : RunningSum := ⟨0, none⟩

/-- Specification-side step of the Running-interval sum. -/
def runningSumStep (r : RunningSum) : SWOp × Int → RunningSum
  | (SWOp.start, t) =>
      match r.runStart with
      | some _ => r
      | none => { r with runStart := some t }
  | (SWOp.pause, t) =>
      match r.runStart with
      | some t0 => ⟨r.acc + (t - t0), none⟩
      | none => r
  | (SWOp.clear, _) => ⟨0, none⟩
  | (SWOp.tick, _) => r

def runRS (r : RunningSum) (tr : List (SWOp × Int)) : RunningSum :=
  tr.foldl runningSumStep r

/-- `true` when every `pause` event of the trace is immediately preceded by
a `tick` at the same clock value (`prev` is the event before the trace). -/
def tickBeforePauseB : Option (SWOp × Int) → List (SWOp × Int) → Bool
  | _, [] => true
  | prev, e :: rest =>
      (if e.1 = SWOp.pause then decide (prev = some (SWOp.tick, e.2)) else true) &&
        tickBeforePauseB (some e) rest

/-- `true` when the event times of the trace are nondecreasing and all are
at least `t0` (the mocked clock is monotone). -/
def monoFromB : Int → List (SWOp × Int) → Bool
  | _, [] => true
  | t0, e :: rest => decide (t0 ≤ e.2) && monoFromB e.2 rest

/-- `true` when the event is not a `setInitialTime`, or is one with a
non-negative argument. -/
def csetArgOk : CDOp → Bool
  | CDOp.setInitialTime ms => decide (0 ≤ ms)
  | _ => true

/-- `true` when every `setInitialTime` argument occurring in the trace is
non-negative. -/
def csetNonnegB : List (CDOp × Int) → Bool
  | [] => true
  | e :: rest => csetArgOk e.1 && csetNonnegB rest

/-- Specification-side definition of the countdown's Finished state (from
the spec's words): the countdown has remaining time 0, is not running, and
its scheduler is stopped. -/
def cdFinished (s : CountdownLogic) : Prop :=
  s.isRunning = false ∧ s.remainingTime = 0 ∧ s.active = []

-- INVARIANTS ----------------------------------------------------------------

/-- Scheduler discipline of the stopwatch: while running, exactly the one
handle stored in `timer` is registered; while not running, no handle is. -/
def SwSched (s : StopwatchLogic) : Prop :=
  (s.isRunning = true → ∃ h, s.timer = some h ∧ s.active = [h]) ∧
  (s.isRunning = false → s.active = [])

/-- Scheduler discipline of the countdown, as for the stopwatch. -/
def CdSched (s : CountdownLogic) : Prop :=
  (s.isRunning = true → ∃ h, s.timer = some h ∧ s.active = [h]) ∧
  (s.isRunning = false → s.active = [])

/-- Simulation invariant between the stopwatch code and the
Running-interval-sum machine; `prev` is the last event processed. -/
def SWSim (s : StopwatchLogic) (r : RunningSum) (prev : Option (SWOp × Int)) : Prop :=
  ((s.isRunning = false ∧ r.runStart = none ∧ s.elapsedTime = r.acc) ∨
    (s.isRunning = true ∧ ∃ t0, r.runStart = some t0 ∧ s.startTime = t0 - r.acc)) ∧
  (∀ t, prev = some (SWOp.tick, t) → s.isRunning = true →
    s.elapsedTime = t - s.startTime)

/-- The digit buffer's value is a whole-second multiple below the 24-hour
bound (23:59:59.000 at most). -/
def InvCIM (m : CountdownInputManager) : Prop :=
  m.inputMs % 1000 = 0 ∧ m.inputMs ≤ 86399000

/-- The event of a trace that immediately precedes its end (`prev` when the
trace is empty). -/
def lastEvent (prev : Option (SWOp × Int)) : List (SWOp × Int) → Option (SWOp × Int)
  | [] => prev
  | e :: rest => lastEvent (some e) rest

-- HELPER LEMMAS -------------------------------------------------------------

theorem clearIntervalOn_single (k : Nat) : clearIntervalOn [k] (some k) = [] := by
  simp [clearIntervalOn]

theorem swSched_step (s : StopwatchLogic) (e : SWOp × Int) (h : SwSched s) :
    SwSched (swStep s e).fst := by
  obtain ⟨h1, h2⟩ := h
  obtain ⟨op, t⟩ := e
  cases op with
  | start =>
    cases hr : s.isRunning with
    | true => simpa [swStep, StopwatchLogic.start, hr] using ⟨h1, h2⟩
    | false =>
      refine ⟨fun _ => ⟨s.nextH, ?_, ?_⟩, fun hc => ?_⟩ <;>
        simp [swStep, StopwatchLogic.start, hr, h2 hr] at *
  | pause =>
    cases hr : s.isRunning with
    | false => simpa [swStep, StopwatchLogic.pause, hr] using ⟨h1, h2⟩
    | true =>
      obtain ⟨k, hk, ha⟩ := h1 hr
      refine ⟨fun hc => ?_, fun _ => ?_⟩
      · simp [swStep, StopwatchLogic.pause, hr] at hc
      · simp [swStep, StopwatchLogic.pause, hr, hk, ha, clearIntervalOn_single]
  | clear =>
    cases hr : s.isRunning with
    | false =>
      refine ⟨fun hc => ?_, fun _ => ?_⟩
      · simp [swStep, StopwatchLogic.clear, StopwatchLogic.pause, hr] at hc
      · simp [swStep, StopwatchLogic.clear, StopwatchLogic.pause, hr, h2 hr]
    | true =>
      obtain ⟨k, hk, ha⟩ := h1 hr
      refine ⟨fun hc => ?_, fun _ => ?_⟩
      · simp [swStep, StopwatchLogic.clear, StopwatchLogic.pause, hr] at hc
      · simp [swStep, StopwatchLogic.clear, StopwatchLogic.pause, hr, hk, ha,
          clearIntervalOn_single]
  | tick =>
    by_cases ha : s.active.isEmpty
    · simpa [swStep, StopwatchLogic.tick, ha] using ⟨h1, h2⟩
    · simpa [swStep, StopwatchLogic.tick, ha] using ⟨h1, h2⟩

theorem swSched_run (s : StopwatchLogic) (tr : List (SWOp × Int)) (h : SwSched s) :
    SwSched (runSW s tr) := by
  induction tr generalizing s with
  | nil => exact h
  | cons e rest ih => exact ih _ (swSched_step s e h)

theorem swSched_reach (tr : List (SWOp × Int)) : SwSched (runSW swInit tr) := by
  refine swSched_run _ _ ⟨fun hc => ?_, fun _ => rfl⟩
  simp [swInit] at hc

theorem cdSched_step (s : CountdownLogic) (e : CDOp × Int) (h : CdSched s) :
    CdSched (cdStep s e).fst := by
  obtain ⟨h1, h2⟩ := h
  obtain ⟨op, t⟩ := e
  cases op with
  | setInitialTime ms =>
    exact ⟨fun hr => by simpa [cdStep, CountdownLogic.setInitialTime] using h1 hr,
      fun hr => by simpa [cdStep, CountdownLogic.setInitialTime] using h2 hr⟩
  | start =>
    by_cases hg : s.isRunning = true ∨ s.remainingTime ≤ 0
    · simpa [cdStep, CountdownLogic.start, hg] using ⟨h1, h2⟩
    · have hr : s.isRunning = false := by
        cases hsr : s.isRunning
        · rfl
        · exact absurd (Or.inl hsr) hg
      refine ⟨fun _ => ⟨s.nextH, ?_, ?_⟩, fun hc => ?_⟩ <;>
        simp [cdStep, CountdownLogic.start, hg, h2 hr] at *
  | pause =>
    cases hr : s.isRunning with
    | false => simpa [cdStep, CountdownLogic.pause, hr] using ⟨h1, h2⟩
    | true =>
      obtain ⟨k, hk, ha⟩ := h1 hr
      refine ⟨fun hc => ?_, fun _ => ?_⟩
      · simp [cdStep, CountdownLogic.pause, hr] at hc
      · simp [cdStep, CountdownLogic.pause, hr, hk, ha, clearIntervalOn_single]
  | continueCountdown =>
    by_cases hg : s.isRunning = true ∨ s.remainingTime ≤ 0
    · simpa [cdStep, CountdownLogic.continueCountdown, hg] using ⟨h1, h2⟩
    · have hr : s.isRunning = false := by
        cases hsr : s.isRunning
        · rfl
        · exact absurd (Or.inl hsr) hg
      refine ⟨fun _ => ⟨s.nextH, ?_, ?_⟩, fun hc => ?_⟩ <;>
        simp [cdStep, CountdownLogic.continueCountdown, CountdownLogic.start, hg,
          h2 hr] at *
  | clear =>
    cases hr : s.isRunning with
    | false =>
      refine ⟨fun hc => ?_, fun _ => ?_⟩
      · simp [cdStep, CountdownLogic.clear, CountdownLogic.pause, hr] at hc
      · simp [cdStep, CountdownLogic.clear, CountdownLogic.pause, hr, h2 hr]
    | true =>
      obtain ⟨k, hk, ha⟩ := h1 hr
      refine ⟨fun hc => ?_, fun _ => ?_⟩
      · simp [cdStep, CountdownLogic.clear, CountdownLogic.pause, hr] at hc
      · simp [cdStep, CountdownLogic.clear, CountdownLogic.pause, hr, hk, ha,
          clearIntervalOn_single]
  | reset =>
    cases hr : s.isRunning with
    | false =>
      refine ⟨fun hc => ?_, fun _ => ?_⟩
      · simp [cdStep, CountdownLogic.reset, CountdownLogic.pause, hr] at hc
      · simp [cdStep, CountdownLogic.reset, CountdownLogic.pause, hr, h2 hr]
    | true =>
      obtain ⟨k, hk, ha⟩ := h1 hr
      refine ⟨fun hc => ?_, fun _ => ?_⟩
      · simp [cdStep, CountdownLogic.reset, CountdownLogic.pause, hr] at hc
      · simp [cdStep, CountdownLogic.reset, CountdownLogic.pause, hr, hk, ha,
          clearIntervalOn_single]
  | tick =>
    by_cases ha : s.active.isEmpty
    · simpa [cdStep, CountdownLogic.tick, ha] using ⟨h1, h2⟩
    · have hr : s.isRunning = true := by
        cases hsr : s.isRunning
        · exact absurd (by simp [h2 hsr]) ha
        · rfl
      obtain ⟨k, hk, hact⟩ := h1 hr
      by_cases hrem : s.endTime - t ≤ 0
      · refine ⟨fun hc => ?_, fun _ => ?_⟩
        · simp [cdStep, CountdownLogic.tick, ha, hrem, CountdownLogic.pause, hr] at hc
        · simp [cdStep, CountdownLogic.tick, ha, hrem, CountdownLogic.pause, hr, hk,
            hact, clearIntervalOn_single]
      · refine ⟨fun _ => ⟨k, ?_, ?_⟩, fun hc => ?_⟩ <;>
          simp [cdStep, CountdownLogic.tick, ha, hrem, hk, hact, hr] at *

theorem cdSched_run (s : CountdownLogic) (tr : List (CDOp × Int)) (h : CdSched s) :
    CdSched (runCd s tr) := by
  induction tr generalizing s with
  | nil => exact h
  | cons e rest ih => exact ih _ (cdSched_step s e h)

theorem cdSched_reach (tr : List (CDOp × Int)) : CdSched (runCd cdInit tr) := by
  refine cdSched_run _ _ ⟨fun hc => ?_, fun _ => rfl⟩
  simp [cdInit] at hc

theorem cdSched_init : CdSched cdInit := by
  refine ⟨fun hc => ?_, fun _ => rfl⟩
  simp [cdInit] at hc

theorem swSim_step (s : StopwatchLogic) (r : RunningSum) (prev : Option (SWOp × Int))
    (op : SWOp) (t : Int)
    (hp : op = SWOp.pause → prev = some (SWOp.tick, t))
    (hs : SwSched s) (h : SWSim s r prev) :
    SWSim (swStep s (op, t)).fst (runningSumStep r (op, t)) (some (op, t)) := by
  obtain ⟨hd, htk⟩ := h
  cases op with
  | start =>
    rcases hd with ⟨hr, hrs, he⟩ | ⟨hr, t0, hrs, hst⟩
    · refine ⟨Or.inr ⟨?_, t, ?_, ?_⟩, fun u hu => ?_⟩
      · simp [swStep, StopwatchLogic.start, hr]
      · simp [runningSumStep, hrs]
      · simp [swStep, StopwatchLogic.start, hr, he, runningSumStep, hrs]
      · simp at hu
    · refine ⟨Or.inr ⟨?_, t0, ?_, ?_⟩, fun u hu => ?_⟩
      · simp [swStep, StopwatchLogic.start, hr]
      · simp [runningSumStep, hrs]
      · simp [swStep, StopwatchLogic.start, hr, hst, runningSumStep, hrs]
      · simp at hu
  | pause =>
    rcases hd with ⟨hr, hrs, he⟩ | ⟨hr, t0, hrs, hst⟩
    · refine ⟨Or.inl ⟨?_, ?_, ?_⟩, fun u hu => ?_⟩
      · simp [swStep, StopwatchLogic.pause, hr]
      · simp [runningSumStep, hrs]
      · simp [swStep, StopwatchLogic.pause, hr, he, runningSumStep, hrs]
      · simp at hu
    · have hprev := hp rfl
      have helap := htk t hprev hr
      refine ⟨Or.inl ⟨?_, ?_, ?_⟩, fun u hu => ?_⟩
      · simp [swStep, StopwatchLogic.pause, hr]
      · simp [runningSumStep, hrs]
      · simp [swStep, StopwatchLogic.pause, hr, runningSumStep, hrs]
        omega
      · simp at hu
  | clear =>
    refine ⟨Or.inl ⟨?_, ?_, ?_⟩, fun u hu => ?_⟩
    · cases hr : s.isRunning <;>
        simp [swStep, StopwatchLogic.clear, StopwatchLogic.pause, hr]
    · simp [runningSumStep]
    · cases hr : s.isRunning <;>
        simp [swStep, StopwatchLogic.clear, StopwatchLogic.pause, hr, runningSumStep]
    · simp at hu
  | tick =>
    by_cases ha : s.active.isEmpty
    · have hr : s.isRunning = false := by
        cases hsr : s.isRunning
        · rfl
        · obtain ⟨k, _, hact⟩ := hs.1 hsr
          simp [hact] at ha
      refine ⟨?_, fun u hu hrun => ?_⟩
      · simpa [swStep, StopwatchLogic.tick, ha, runningSumStep] using hd
      · simp [swStep, StopwatchLogic.tick, ha] at hrun
        exact absurd hrun (by simp [hr])
    · refine ⟨?_, fun u hu hrun => ?_⟩
      · rcases hd with ⟨hr, hrs, he⟩ | ⟨hr, t0, hrs, hst⟩
        · exact absurd (hs.2 hr) (by simpa [List.isEmpty_iff] using ha)
        · exact Or.inr ⟨by simp [swStep, StopwatchLogic.tick, ha, hr],
            t0, by simp [runningSumStep, hrs],
            by simp [swStep, StopwatchLogic.tick, ha, hst, runningSumStep, hrs]⟩
      · simp at hu
        subst hu
        simp [swStep, StopwatchLogic.tick, ha]

theorem swSim_run (tr : List (SWOp × Int)) :
    ∀ (s : StopwatchLogic) (r : RunningSum) (prev : Option (SWOp × Int)),
    tickBeforePauseB prev tr = true → SwSched s → SWSim s r prev →
    SWSim (runSW s tr) (runRS r tr) (lastEvent prev tr) := by
  induction tr with
  | nil => intro s r prev _ _ h; exact h
  | cons e rest ih =>
    intro s r prev htb hs h
    obtain ⟨op, t⟩ := e
    rw [tickBeforePauseB, Bool.and_eq_true] at htb
    obtain ⟨hif, hrest⟩ := htb
    have hp : op = SWOp.pause → prev = some (SWOp.tick, t) := by
      intro hop
      subst hop
      simpa using hif
    exact ih _ _ _ hrest (swSched_step s (op, t) hs) (swSim_step s r prev op t hp hs h)

theorem swSim_reach (tr : List (SWOp × Int)) (h : tickBeforePauseB none tr = true) :
    SWSim (runSW swInit tr) (runRS rsInit tr) (lastEvent none tr) := by
  refine swSim_run tr swInit rsInit none h ⟨fun hc => ?_, fun _ => rfl⟩
    ⟨Or.inl ⟨rfl, rfl, rfl⟩, fun u hu => by simp at hu⟩
  simp [swInit] at hc

theorem invCIM_press (m : CountdownInputManager) (d : Nat) (h : InvCIM m) :
    InvCIM (m.handleNumberInput d) := by
  unfold CountdownInputManager.handleNumberInput
  split
  · exact h
  · dsimp only
    split
    · exact h
    · rename_i hguard
      rw [not_or, not_or] at hguard
      obtain ⟨hh, hm, hs⟩ := hguard
      simp only [MS_PER_HOUR, MS_PER_MINUTE, MS_PER_SECOND, MAX_COUNTDOWN_MS] at *
      split
      · rename_i hclamp
        exfalso
        omega
      · constructor <;> simp only <;> omega

theorem clampHit_false (m : CountdownInputManager) (d : Nat) : m.clampHit d = false := by
  unfold CountdownInputManager.clampHit
  split
  · rfl
  · dsimp only
    split
    · rfl
    · rename_i hguard
      rw [not_or, not_or] at hguard
      obtain ⟨hh, hm, hs⟩ := hguard
      simp only [MS_PER_HOUR, MS_PER_MINUTE, MS_PER_SECOND, MAX_COUNTDOWN_MS] at *
      simp only [decide_eq_false_iff_not]
      omega

theorem invCIM_run (ops : List CIMOp) : InvCIM (runCIM ops) := by
  have step : ∀ (m : CountdownInputManager) (o : CIMOp), InvCIM m → InvCIM (cimStep m o) := by
    intro m o h
    cases o with
    | press d => exact invCIM_press m d h
    | clearIn => exact ⟨rfl, Nat.zero_le _⟩
  have run : ∀ (l : List CIMOp) (m : CountdownInputManager), InvCIM m →
      InvCIM (l.foldl cimStep m) := by
    intro l
    induction l with
    | nil => intro m h; exact h
    | cons o rest ih => intro m h; exact ih _ (step m o h)
  exact run ops cimInit ⟨rfl, Nat.zero_le _⟩

theorem swEmits_nonneg_aux (tr : List (SWOp × Int)) :
    ∀ (s : StopwatchLogic) (t0 : Int), monoFromB t0 tr = true → SwSched s →
    0 ≤ s.elapsedTime → (s.isRunning = true → s.startTime ≤ t0) →
    ∀ v ∈ swEmits s tr, 0 ≤ v := by
  induction tr with
  | nil => intro s t0 _ _ _ _ v hv; simp [swEmits] at hv
  | cons e rest ih =>
    intro s t0 hm hs he hst v hv
    obtain ⟨op, t⟩ := e
    rw [monoFromB, Bool.and_eq_true] at hm
    obtain ⟨ht, hrest⟩ := hm
    have ht' : t0 ≤ t := of_decide_eq_true ht
    rw [swEmits, List.mem_append] at hv
    have hsched := swSched_step s (op, t) hs
    cases op with
    | start =>
      rcases hv with hv | hv
      · simp [swStep] at hv
      · refine ih _ t hrest hsched ?_ ?_ v hv
        · cases hr : s.isRunning <;> simp [swStep, StopwatchLogic.start, hr, he]
        · intro hrun
          cases hr : s.isRunning with
          | true =>
            simp [swStep, StopwatchLogic.start, hr]
            exact le_trans (hst hr) ht'
          | false =>
            simp [swStep, StopwatchLogic.start, hr]
            exact he
    | pause =>
      rcases hv with hv | hv
      · simp [swStep] at hv
      · refine ih _ t hrest hsched ?_ ?_ v hv
        · cases hr : s.isRunning <;> simp [swStep, StopwatchLogic.pause, hr, he]
        · intro hrun
          cases hr : s.isRunning with
          | true => simp [swStep, StopwatchLogic.pause, hr] at hrun
          | false =>
            simp [swStep, StopwatchLogic.pause, hr] at hrun ⊢
    | clear =>
      rcases hv with hv | hv
      · simp [swStep, StopwatchLogic.clear] at hv
        omega
      · refine ih _ t hrest hsched ?_ ?_ v hv
        · cases hr : s.isRunning <;>
            simp [swStep, StopwatchLogic.clear, StopwatchLogic.pause, hr]
        · intro hrun
          cases hr : s.isRunning <;>
            simp [swStep, StopwatchLogic.clear, StopwatchLogic.pause, hr] at hrun
    | tick =>
      by_cases ha : s.active.isEmpty
      · have hr : s.isRunning = false := by
          cases hsr : s.isRunning
          · rfl
          · obtain ⟨k, _, hact⟩ := hs.1 hsr
            simp [hact] at ha
        rcases hv with hv | hv
        · simp [swStep, StopwatchLogic.tick, ha] at hv
        · refine ih _ t hrest hsched ?_ ?_ v hv
          · simpa [swStep, StopwatchLogic.tick, ha] using he
          · intro hrun
            simp [swStep, StopwatchLogic.tick, ha] at hrun
            rw [hrun] at hr
            exact absurd hr (by simp)
      · have hr : s.isRunning = true := by
          cases hsr : s.isRunning
          · exact absurd (by simp [hs.2 hsr]) ha
          · rfl
        have hse : s.startTime ≤ t := le_trans (hst hr) ht'
        rcases hv with hv | hv
        · simp [swStep, StopwatchLogic.tick, ha] at hv
          omega
        · refine ih _ t hrest hsched ?_ ?_ v hv
          · simp [swStep, StopwatchLogic.tick, ha]
            omega
          · intro hrun
            simp [swStep, StopwatchLogic.tick, ha]
            exact hse

theorem cdPause_initial (s : CountdownLogic) :
    s.pause.initialTimeMs = s.initialTimeMs := by
  unfold CountdownLogic.pause
  split <;> rfl

theorem cdEmits_nonneg_aux (tr : List (CDOp × Int)) :
    ∀ (s : CountdownLogic), csetNonnegB tr = true → 0 ≤ s.initialTimeMs →
    ∀ v ∈ cdEmits s tr, 0 ≤ v := by
  induction tr with
  | nil => intro s _ _ v hv; simp [cdEmits] at hv
  | cons e rest ih =>
    intro s hcs hinit v hv
    obtain ⟨op, t⟩ := e
    rw [cdEmits, List.mem_append] at hv
    cases op with
    | setInitialTime ms =>
      rw [csetNonnegB, Bool.and_eq_true] at hcs
      obtain ⟨hms, hrest⟩ := hcs
      simp only [csetArgOk, decide_eq_true_eq] at hms
      have hms' : (0:Int) ≤ ms := hms
      rcases hv with hv | hv
      · simp [cdStep, CountdownLogic.setInitialTime] at hv
        omega
      · refine ih _ hrest ?_ v hv
        simp [cdStep, CountdownLogic.setInitialTime]
        exact hms'
    | start =>
      rw [csetNonnegB, Bool.and_eq_true] at hcs
      replace hcs := hcs.2
      rcases hv with hv | hv
      · simp [cdStep] at hv
      · refine ih _ hcs ?_ v hv
        by_cases hg : s.isRunning = true ∨ s.remainingTime ≤ 0 <;>
          simp [cdStep, CountdownLogic.start, hg, hinit]
    | pause =>
      rw [csetNonnegB, Bool.and_eq_true] at hcs
      replace hcs := hcs.2
      rcases hv with hv | hv
      · simp [cdStep] at hv
      · refine ih _ hcs ?_ v hv
        simpa [cdStep, cdPause_initial] using hinit
    | continueCountdown =>
      rw [csetNonnegB, Bool.and_eq_true] at hcs
      replace hcs := hcs.2
      rcases hv with hv | hv
      · simp [cdStep] at hv
      · refine ih _ hcs ?_ v hv
        by_cases hg : s.isRunning = true ∨ s.remainingTime ≤ 0 <;>
          simp [cdStep, CountdownLogic.continueCountdown, CountdownLogic.start, hg, hinit]
    | clear =>
      rw [csetNonnegB, Bool.and_eq_true] at hcs
      replace hcs := hcs.2
      rcases hv with hv | hv
      · simp [cdStep, CountdownLogic.clear, cdPause_initial] at hv
        omega
      · refine ih _ hcs ?_ v hv
        simpa [cdStep, CountdownLogic.clear, cdPause_initial] using hinit
    | reset =>
      rw [csetNonnegB, Bool.and_eq_true] at hcs
      replace hcs := hcs.2
      rcases hv with hv | hv
      · simp [cdStep, CountdownLogic.reset] at hv
        omega
      · refine ih _ hcs ?_ v hv
        simp [cdStep, CountdownLogic.reset]
    | tick =>
      rw [csetNonnegB, Bool.and_eq_true] at hcs
      replace hcs := hcs.2
      by_cases ha : s.active.isEmpty
      · rcases hv with hv | hv
        · simp [cdStep, CountdownLogic.tick, ha] at hv
        · refine ih _ hcs ?_ v hv
          simpa [cdStep, CountdownLogic.tick, ha] using hinit
      · by_cases hrem : s.endTime - t ≤ 0
        · rcases hv with hv | hv
          · simp [cdStep, CountdownLogic.tick, ha, hrem] at hv
            omega
          · refine ih _ hcs ?_ v hv
            simpa [cdStep, CountdownLogic.tick, ha, hrem, cdPause_initial] using hinit
        · rcases hv with hv | hv
          · simp [cdStep, CountdownLogic.tick, ha, hrem] at hv
            omega
          · refine ih _ hcs ?_ v hv
            simpa [cdStep, CountdownLogic.tick, ha, hrem] using hinit

-- CLAIM THEOREMS ------------------------------------------------------------

/-- C1 counterexample: the claim says `setInitialTime 86400000` is rejected
with the engine state left unchanged; in the code the call succeeds and
changes the state (`initialTimeMs` becomes 86400000). -/
theorem C1_counterexample :
    (cdInit.setInitialTime 86400000).fst.initialTimeMs = 86400000 ∧
    (cdInit.setInitialTime 86400000).fst ≠ cdInit := by
  constructor
  · rfl
  · decide

/-- C1 (amended): `setInitialTime` performs no range validation and signals
no error: for every `ms` — including 0, 86400000 and the boundary 86399999 —
it sets `initialTimeMs = remainingTime = ms`, resets the button to Start,
leaves every other field unchanged, and emits `ms` to the display. -/
theorem C1_setInitialTime_no_validation (s : CountdownLogic) (ms : Int) :
    (s.setInitialTime ms).fst =
      { s with initialTimeMs := ms, remainingTime := ms, button := Btn.bstart } ∧
    (s.setInitialTime ms).snd = [ms] :=
  ⟨rfl, rfl⟩

/-- C2 counterexample: start at 0, a (jittered) tick at 5, pause at 9: the
Running interval lasted 9 ms but the code's `elapsedTime` after the pause is
5, the value of the last tick — so elapsed after a pause does not equal the
sum of the Running-interval durations for every tick sequence. -/
theorem C2_counterexample :
    (runSW swInit [(SWOp.start, 0), (SWOp.tick, 5), (SWOp.pause, 9)]).elapsedTime = 5 ∧
    (runRS rsInit [(SWOp.start, 0), (SWOp.tick, 5), (SWOp.pause, 9)]).acc = 9 ∧
    (runSW swInit [(SWOp.start, 0), (SWOp.tick, 5), (SWOp.pause, 9)]).elapsedTime ≠
      (runRS rsInit [(SWOp.start, 0), (SWOp.tick, 5), (SWOp.pause, 9)]).acc := by
  refine ⟨?_, ?_, ?_⟩ <;> decide

/-- C2 (amended): for every start/pause/clear/tick trace in which each
`pause` instant coincides with a tick (a tick fires at the pause's clock
value just before it), the stopwatch's `elapsedTime` in any non-running
state equals the accumulated sum of the Running-interval durations —
independent of the jitter of the other ticks; and `start()` in a
non-running state sets the anchor `startTime = now - elapsedTime`, so
resuming from a pause preserves the accumulated elapsed time. -/
theorem C2_elapsed_eq_running_sum :
    (∀ tr : List (SWOp × Int), tickBeforePauseB none tr = true →
      (runSW swInit tr).isRunning = false →
      (runSW swInit tr).elapsedTime = (runRS rsInit tr).acc) ∧
    (∀ (s : StopwatchLogic) (t : Int), s.isRunning = false →
      (s.start t).startTime = t - s.elapsedTime) := by
  constructor
  · intro tr htb hnr
    obtain ⟨hd, _⟩ := swSim_reach tr htb
    rcases hd with ⟨_, _, he⟩ | ⟨hr, _⟩
    · exact he
    · rw [hnr] at hr
      exact absurd hr (by simp)
  · intro s t hr
    simp [StopwatchLogic.start, hr]

/-- C2 witness: a trace whose pause coincides with a tick, and a concrete
anchor computation. -/
theorem C2_witness :
    (runSW swInit [(SWOp.start, 0), (SWOp.tick, 5), (SWOp.pause, 5)]).elapsedTime =
      (runRS rsInit [(SWOp.start, 0), (SWOp.tick, 5), (SWOp.pause, 5)]).acc ∧
    (swInit.start 7).startTime = 7 - swInit.elapsedTime :=
  ⟨C2_elapsed_eq_running_sum.1 _ (by decide) (by decide),
   C2_elapsed_eq_running_sum.2 swInit 7 (by decide)⟩

/-- C3: the code evaluated at the claim's own example.  Pressing digits
1,2,3,4,5,6 from a cleared buffer yields 11456000 ms (03:10:56), not the
claimed 45296000 ms (12:34:56): `handleNumberInput` rebuilds its 6-digit
register from the decimal rendering of the total-seconds value instead of
the HHMMSS digit string.  Pressing 9 afterwards shifts `011456` to
`114569`, whose seconds field 69 exceeds 59, so that press is indeed
rejected with the buffer unchanged. -/
theorem C3_digit_shift_evaluated :
    (pressSeq [1, 2, 3, 4, 5, 6]).inputMs = 11456000 ∧
    (pressSeq [1, 2, 3, 4, 5, 6]).inputMs ≠ (12 * 3600 + 34 * 60 + 56) * 1000 ∧
    (pressSeq [1, 2, 3, 4, 5, 6]).handleNumberInput 9 = pressSeq [1, 2, 3, 4, 5, 6] := by
  refine ⟨?_, ?_, ?_⟩ <;> decide

/-- C5 counterexample: set 1000 ms, start at 0, tick at 10 (storing
remaining = 990), pause at 500.  The code freezes `remainingTime` at 990,
the last tick's value, not at `deadline - now = 1000 - 500 = 500` as the
claim states. -/
theorem C5_counterexample :
    (runCd cdInit [(CDOp.setInitialTime 1000, 0), (CDOp.start, 0), (CDOp.tick, 10),
      (CDOp.pause, 500)]).remainingTime = 990 ∧
    (runCd cdInit [(CDOp.setInitialTime 1000, 0), (CDOp.start, 0), (CDOp.tick, 10),
      (CDOp.pause, 500)]).endTime - 500 = 500 ∧
    (runCd cdInit [(CDOp.setInitialTime 1000, 0), (CDOp.start, 0), (CDOp.tick, 10),
      (CDOp.pause, 500)]).remainingTime ≠
      (runCd cdInit [(CDOp.setInitialTime 1000, 0), (CDOp.start, 0), (CDOp.tick, 10),
        (CDOp.pause, 500)]).endTime - 500 := by
  refine ⟨?_, ?_, ?_⟩ <;> decide

/-- C5 (amended): `pause()` while Running freezes `remainingTime` at exactly
the value stored by the last scheduled tick — it performs no recomputation
from the deadline at the pause instant (the pause's clock value `t` does not
influence the state), so up to one tick interval of precision can be lost. -/
theorem C5_pause_freezes_last_tick_value (s : CountdownLogic) (t : Int)
    (h : s.isRunning = true) :
    (cdStep s (CDOp.pause, t)).fst.remainingTime = s.remainingTime ∧
    (cdStep s (CDOp.pause, t)).fst.isRunning = false ∧
    (cdStep s (CDOp.pause, t)).fst.button = Btn.bcontinue ∧
    (cdStep s (CDOp.pause, t)).fst.active = clearIntervalOn s.active s.timer ∧
    (cdStep s (CDOp.pause, t)).snd = [] := by
  refine ⟨?_, ?_, ?_, ?_, ?_⟩ <;> simp [cdStep, CountdownLogic.pause, h]

/-- C5 witness: pausing a concrete running countdown keeps the last tick's
remaining value. -/
theorem C5_witness :
    (cdStep (runCd cdInit [(CDOp.setInitialTime 1000, 0), (CDOp.start, 0), (CDOp.tick, 10)])
      (CDOp.pause, 500)).fst.remainingTime =
      (runCd cdInit [(CDOp.setInitialTime 1000, 0), (CDOp.start, 0), (CDOp.tick, 10)]).remainingTime :=
  (C5_pause_freezes_last_tick_value _ 500 (by decide)).1

/-- C4: for every `0 < ms ≤ 86399999`, from any quiescent engine state
(not running, no registered interval), `setInitialTime ms` then `start` at
`t0` then a tick at exactly `t0 + ms` clamps `remainingTime` to 0, stops the
scheduler, leaves the engine in the Finished configuration (not running,
remaining 0, no interval — the code renders it with the Start button), and
emits 0 exactly once; any further tick is a no-op emitting nothing. -/
theorem C4_finish_on_deadline (s : CountdownLogic) (ms t0 : Int)
    (h0 : 0 < ms) (h1 : ms ≤ 86399999)
    (hr : s.isRunning = false) (ha : s.active = []) :
    cdFinished (((s.setInitialTime ms).fst.start t0).tick (t0 + ms)).fst ∧
    (((s.setInitialTime ms).fst.start t0).tick (t0 + ms)).snd = [0] ∧
    (((s.setInitialTime ms).fst.start t0).tick (t0 + ms)).fst.button = Btn.bstart ∧
    ∀ t, (((s.setInitialTime ms).fst.start t0).tick (t0 + ms)).fst.tick t =
      ((((s.setInitialTime ms).fst.start t0).tick (t0 + ms)).fst, []) := by
  have hms : ¬(ms ≤ 0) := by omega
  have hstart : (s.setInitialTime ms).fst.start t0 =
      { s with
        initialTimeMs := ms, remainingTime := ms, isRunning := true,
        endTime := t0 + ms, button := Btn.bpause, timer := some s.nextH,
        active := [s.nextH], nextH := s.nextH + 1 } := by
    simp [CountdownLogic.setInitialTime, CountdownLogic.start, hr, hms, ha]
  rw [hstart]
  have htick :
      ({ s with
        initialTimeMs := ms, remainingTime := ms, isRunning := true,
        endTime := t0 + ms, button := Btn.bpause, timer := some s.nextH,
        active := [s.nextH], nextH := s.nextH + 1 } : CountdownLogic).tick (t0 + ms) =
      ({ s with
        initialTimeMs := ms, remainingTime := 0, isRunning := false,
        endTime := t0 + ms, button := Btn.bstart, timer := some s.nextH,
        active := [], nextH := s.nextH + 1 }, [0]) := by
    simp [CountdownLogic.tick, CountdownLogic.pause, clearIntervalOn_single]
  rw [htick]
  refine ⟨⟨rfl, rfl, rfl⟩, rfl, rfl, fun t => ?_⟩
  simp [CountdownLogic.tick]

/-- C4 witness: a 1000 ms countdown from the initial engine state finishes
on the tick at its deadline. -/
theorem C4_witness :
    cdFinished (((cdInit.setInitialTime 1000).fst.start 0).tick (0 + 1000)).fst ∧
    (((cdInit.setInitialTime 1000).fst.start 0).tick (0 + 1000)).snd = [0] :=
  ⟨(C4_finish_on_deadline cdInit 1000 0 (by decide) (by decide) rfl rfl).1,
   (C4_finish_on_deadline cdInit 1000 0 (by decide) (by decide) rfl rfl).2.1⟩

/-- C6 counterexample: set 1000 ms, start at 0, then `setInitialTime 500`
at 100 while Running: the engine is still running with an active interval
(not Idle with ticking stopped, as the claim states), and the next tick at
200 recomputes `remainingTime = 800` from the old deadline, overwriting the
newly set 500. -/
theorem C6_counterexample :
    (runCd cdInit [(CDOp.setInitialTime 1000, 0), (CDOp.start, 0),
      (CDOp.setInitialTime 500, 100)]).isRunning = true ∧
    (runCd cdInit [(CDOp.setInitialTime 1000, 0), (CDOp.start, 0),
      (CDOp.setInitialTime 500, 100)]).active ≠ [] ∧
    ((runCd cdInit [(CDOp.setInitialTime 1000, 0), (CDOp.start, 0),
      (CDOp.setInitialTime 500, 100)]).tick 200).fst.remainingTime = 800 := by
  refine ⟨?_, ?_, ?_⟩ <;> decide

/-- C6 (amended): `setInitialTime` sets `initialTimeMs = remainingTime = ms`
and the button to Start, but does not stop an active scheduler: called while
Running it leaves `isRunning`, the registered interval and the old deadline
`endTime` untouched, and a subsequent tick (while the old deadline is still
in the future) recomputes `remainingTime` from that old deadline.  The
engine therefore reaches the Idle configuration only when it was not
running at the call. -/
theorem C6_setInitialTime_keeps_timer (s : CountdownLogic) (ms t' : Int)
    (h : s.isRunning = true) :
    (s.setInitialTime ms).fst.isRunning = true ∧
    (s.setInitialTime ms).fst.active = s.active ∧
    (s.setInitialTime ms).fst.endTime = s.endTime ∧
    (s.active.isEmpty = false → 0 < s.endTime - t' →
      ((s.setInitialTime ms).fst.tick t').fst.remainingTime = s.endTime - t') := by
  refine ⟨by simp [CountdownLogic.setInitialTime, h], rfl, rfl, fun hae hpos => ?_⟩
  have : ¬(s.endTime - t' ≤ 0) := by omega
  simp [CountdownLogic.setInitialTime, CountdownLogic.tick, hae, this]

/-- C6 witness: the amended behavior at the counterexample's trace. -/
theorem C6_witness :
    ((((runCd cdInit [(CDOp.setInitialTime 1000, 0), (CDOp.start, 0)]).setInitialTime
      500).fst.tick 200).fst).remainingTime =
      (runCd cdInit [(CDOp.setInitialTime 1000, 0), (CDOp.start, 0)]).endTime - 200 :=
  (C6_setInitialTime_keeps_timer _ 500 200 (by decide)).2.2.2 (by decide) (by decide)

/-- C7: after any sequence of operations, `clear()` restores the countdown's
`remainingTime` to `initialTimeMs` (resp. the stopwatch's `elapsedTime` to
0), leaves the engine not running with no registered interval and the Start
button showing (the Idle configuration); and a committed buffer value fed
through `setInitialTime` followed immediately by `clear` reproduces exactly
the committed duration as the remaining value. -/
theorem C7_clear_restores_baseline :
    (∀ (tr : List (CDOp × Int)) (t : Int),
      (cdStep (runCd cdInit tr) (CDOp.clear, t)).fst.remainingTime =
        (cdStep (runCd cdInit tr) (CDOp.clear, t)).fst.initialTimeMs ∧
      (cdStep (runCd cdInit tr) (CDOp.clear, t)).fst.isRunning = false ∧
      (cdStep (runCd cdInit tr) (CDOp.clear, t)).fst.active = [] ∧
      (cdStep (runCd cdInit tr) (CDOp.clear, t)).fst.button = Btn.bstart) ∧
    (∀ (tr : List (SWOp × Int)) (t : Int),
      (swStep (runSW swInit tr) (SWOp.clear, t)).fst.elapsedTime = 0 ∧
      (swStep (runSW swInit tr) (SWOp.clear, t)).fst.isRunning = false ∧
      (swStep (runSW swInit tr) (SWOp.clear, t)).fst.active = [] ∧
      (swStep (runSW swInit tr) (SWOp.clear, t)).fst.button = Btn.bstart) ∧
    (∀ (m : CountdownInputManager) (v : Nat) (s : CountdownLogic) (t t' : Int),
      m.triggerSet = some v →
      (cdStep (cdStep s (CDOp.setInitialTime (v : Int), t)).fst
        (CDOp.clear, t')).fst.remainingTime = (v : Int)) := by
  refine ⟨fun tr t => ?_, fun tr t => ?_, fun m v s t t' _ => ?_⟩
  · obtain ⟨h1, h2⟩ := cdSched_reach tr
    set s0 := runCd cdInit tr with hs0
    cases hr : s0.isRunning with
    | false =>
      refine ⟨?_, ?_, ?_, ?_⟩ <;>
        simp [cdStep, CountdownLogic.clear, CountdownLogic.pause, hr, h2 hr]
    | true =>
      obtain ⟨k, hk, hact⟩ := h1 hr
      refine ⟨?_, ?_, ?_, ?_⟩ <;>
        simp [cdStep, CountdownLogic.clear, CountdownLogic.pause, hr, hk, hact,
          clearIntervalOn_single]
  · obtain ⟨h1, h2⟩ := swSched_reach tr
    set s0 := runSW swInit tr with hs0
    cases hr : s0.isRunning with
    | false =>
      refine ⟨?_, ?_, ?_, ?_⟩ <;>
        simp [swStep, StopwatchLogic.clear, StopwatchLogic.pause, hr, h2 hr]
    | true =>
      obtain ⟨k, hk, hact⟩ := h1 hr
      refine ⟨?_, ?_, ?_, ?_⟩ <;>
        simp [swStep, StopwatchLogic.clear, StopwatchLogic.pause, hr, hk, hact,
          clearIntervalOn_single]
  · simp [cdStep, CountdownLogic.setInitialTime, CountdownLogic.clear,
      CountdownLogic.pause]
    split <;> rfl

/-- C7 witness: committing a buffer holding 5000 ms, setting it and clearing
immediately reproduces 5000 ms. -/
theorem C7_witness :
    (cdStep (cdStep cdInit (CDOp.setInitialTime ((5000 : Nat) : Int), 0)).fst
      (CDOp.clear, 1)).fst.remainingTime = ((5000 : Nat) : Int) :=
  C7_clear_restores_baseline.2.2 ⟨5000⟩ 5000 cdInit 0 1 (by decide)

/-- C8: `start()` is idempotent on both engines — a second consecutive
`start` (at any later clock value) leaves the state exactly as after the
first — and along every trace from the initial state each engine has at
most one registered interval handle, so a start while Running registers no
duplicate periodic callback. -/
theorem C8_start_idempotent :
    (∀ (s : StopwatchLogic) (t t' : Int), (s.start t).start t' = s.start t) ∧
    (∀ (s : CountdownLogic) (t t' : Int), (s.start t).start t' = s.start t) ∧
    (∀ tr : List (SWOp × Int), (runSW swInit tr).active.length ≤ 1) ∧
    (∀ tr : List (CDOp × Int), (runCd cdInit tr).active.length ≤ 1) := by
  refine ⟨fun s t t' => ?_, fun s t t' => ?_, fun tr => ?_, fun tr => ?_⟩
  · cases hr : s.isRunning with
    | true => simp [StopwatchLogic.start, hr]
    | false =>
      have h1 : s.start t =
          { s with
            isRunning := true, startTime := t - s.elapsedTime, button := Btn.bpause,
            timer := some s.nextH, active := s.active ++ [s.nextH],
            nextH := s.nextH + 1 } := by
        simp [StopwatchLogic.start, hr]
      rw [h1]
      simp [StopwatchLogic.start]
  · by_cases hg : s.isRunning = true ∨ s.remainingTime ≤ 0
    · simp [CountdownLogic.start, hg]
    · have h1 : s.start t =
          { s with
            isRunning := true, endTime := t + s.remainingTime, button := Btn.bpause,
            timer := some s.nextH, active := s.active ++ [s.nextH],
            nextH := s.nextH + 1 } := by
        simp [CountdownLogic.start, hg]
      rw [h1]
      simp [CountdownLogic.start]
  · obtain ⟨h1, h2⟩ := swSched_reach tr
    cases hr : (runSW swInit tr).isRunning with
    | true => obtain ⟨k, _, hact⟩ := h1 hr; simp [hact]
    | false => simp [h2 hr]
  · obtain ⟨h1, h2⟩ := cdSched_reach tr
    cases hr : (runCd cdInit tr).isRunning with
    | true => obtain ⟨k, _, hact⟩ := h1 hr; simp [hact]
    | false => simp [h2 hr]

/-- C9: every value either engine ever passes to the display observer along
a trace from the initial state is non-negative: for the stopwatch under a
monotone mocked clock (each event time at least `t0` and nondecreasing),
and for the countdown whenever every `setInitialTime` argument in the trace
is non-negative (the countdown clamps to 0 before emitting on ticks). -/
theorem C9_emitted_values_nonneg :
    (∀ (tr : List (SWOp × Int)) (t0 : Int), monoFromB t0 tr = true →
      ∀ v ∈ swEmits swInit tr, 0 ≤ v) ∧
    (∀ tr : List (CDOp × Int), csetNonnegB tr = true →
      ∀ v ∈ cdEmits cdInit tr, 0 ≤ v) := by
  constructor
  · intro tr t0 hm
    refine swEmits_nonneg_aux tr swInit t0 hm
      ⟨fun hc => by simp [swInit] at hc, fun _ => rfl⟩ le_rfl fun hc => ?_
    simp [swInit] at hc
  · intro tr hcs
    exact cdEmits_nonneg_aux tr cdInit hcs le_rfl

/-- C9 witness: concrete emissions of both engines are non-negative. -/
theorem C9_witness :
    swEmits swInit [(SWOp.start, 0), (SWOp.tick, 3)] = [3] ∧ (0 : Int) ≤ 3 ∧
    cdEmits cdInit [(CDOp.setInitialTime 7, 0)] = [7] ∧ (0 : Int) ≤ 7 :=
  ⟨by decide,
   C9_emitted_values_nonneg.1 [(SWOp.start, 0), (SWOp.tick, 3)] 0 (by decide) 3 (by decide),
   by decide,
   C9_emitted_values_nonneg.2 [(CDOp.setInitialTime 7, 0)] (by decide) 7 (by decide)⟩

/-- C10: along every sequence of digit presses and input-clears the buffered
`inputMs` is a whole-second multiple of 1000 and at most 86399000 ms
(23:59:59.000); and for every buffer state and digit the clamping branch
guarded by `inputMs > MAX_COUNTDOWN_MS` inside `handleNumberInput` is
unreachable (an accepted press can produce at most
23*3600000 + 59*60000 + 59*1000 = 86399000 < 86399999). -/
theorem C10_clamp_unreachable :
    (∀ ops : List CIMOp,
      (runCIM ops).inputMs % 1000 = 0 ∧ (runCIM ops).inputMs ≤ 86399000) ∧
    (∀ (m : CountdownInputManager) (d : Nat), m.clampHit d = false) :=
  ⟨fun ops => invCIM_run ops, clampHit_false⟩
